import Mathlib

/-!
Verification of the keras-nlp base-class infrastructure:
`Task` (src/keras_nlp/src/models/task.py), `Preprocessor`
(src/keras_nlp/src/models/preprocessor.py) and `MistralTokenizer`
(src/keras_nlp/src/models/mistral/mistral_tokenizer.py).

Python dictionaries are embedded as ordered association lists with the
exact `dict.update` semantics (an existing key keeps its position but its
value is overwritten; a new key is appended).  Object identities (`id(w)`
in Python) are embedded as natural numbers.  Fallible methods return
`Except`, the error carrying the exception message.
-/

namespace KerasNlp

/-! ## Python dict embedding (ordered association list, string keys) -/

/-- A Python `dict` with string keys, embedded as an ordered association
list.  The values of preset mappings (metadata blobs) are opaque; we embed
them as natural numbers. -/
abbrev Dict := List (String × Nat)

/-- Key lookup in a dict.  For a dict built through `dictInsert` keys are
unique, so the first hit is the binding. -/
def dictLookup (d : Dict) (k : String) : Option Nat :=
  match d with
  | [] => none
  | (k', v) :: rest => if k' = k then some v else dictLookup rest k

/-- The keys of a dict, in insertion order. -/
def dictKeys (d : Dict) : List String :=
  d.map Prod.fst

/-- `k in d` in Python. -/
def dictHasKey (d : Dict) (k : String) : Bool :=
  d.any (fun p => p.1 = k)

/-- `d[k] = v` in Python: if `k` is already present its value is
overwritten in place, otherwise the binding is appended at the end. -/
def dictInsert (d : Dict) (k : String) (v : Nat) : Dict :=
  if dictHasKey d k then
    d.map (fun p => if p.1 = k then (k, v) else p)
  else
    d ++ [(k, v)]

/-- `d.update(other)` in Python: every binding of `other` is written into
`d` in order, overwriting the values of keys already present. -/
def dictUpdate (d other : Dict) : Dict :=
  other.foldl (fun acc p => dictInsert acc p.1 p.2) d

theorem dictLookup_cons (p : String × Nat) (rest : Dict) (k : String) :
    dictLookup (p :: rest) k = if p.1 = k then some p.2 else dictLookup rest k :=
  rfl

theorem dictUpdate_cons (d : Dict) (p : String × Nat) (rest : Dict) :
    dictUpdate d (p :: rest) = dictUpdate (dictInsert d p.1 p.2) rest :=
  rfl

theorem dictHasKey_iff (d : Dict) (k : String) :
    dictHasKey d k = true ↔ k ∈ dictKeys d := by
  simp only [dictHasKey, dictKeys, List.any_eq_true, decide_eq_true_eq,
    List.mem_map]

theorem dictKeys_dictInsert (d : Dict) (k : String) (v : Nat) (k' : String) :
    k' ∈ dictKeys (dictInsert d k v) ↔ k' ∈ dictKeys d ∨ k' = k := by
  unfold dictInsert
  by_cases h : dictHasKey d k = true
  · rw [if_pos h]
    have hk : k ∈ dictKeys d := (dictHasKey_iff d k).mp h
    have hkeys :
        dictKeys (d.map (fun p => if p.1 = k then (k, v) else p)) = dictKeys d := by
      unfold dictKeys
      rw [List.map_map]
      apply List.map_congr_left
      intro q _
      by_cases hqk : q.1 = k
      · simp [Function.comp, hqk]
      · simp [Function.comp, hqk]
    rw [hkeys]
    constructor
    · exact Or.inl
    · rintro (hm | rfl)
      · exact hm
      · exact hk
  · rw [if_neg h]
    unfold dictKeys
    rw [List.map_append]
    simp [List.mem_append]

theorem dictKeys_dictUpdate (e : Dict) : ∀ (d : Dict) (k : String),
    k ∈ dictKeys (dictUpdate d e) ↔ k ∈ dictKeys d ∨ k ∈ dictKeys e := by
  induction e with
  | nil =>
      intro d k
      simp [dictUpdate, dictKeys]
  | cons p rest ih =>
      intro d k
      rw [dictUpdate_cons, ih, dictKeys_dictInsert]
      unfold dictKeys
      simp only [List.map_cons, List.mem_cons]
      tauto

theorem dictLookup_dictInsert_self (d : Dict) (k : String) (v : Nat) :
    dictLookup (dictInsert d k v) k = some v := by
  unfold dictInsert
  by_cases h : dictHasKey d k = true
  · rw [if_pos h]
    induction d with
    | nil => simp [dictHasKey] at h
    | cons p rest ih =>
        by_cases hpk : p.1 = k
        · simp [dictLookup_cons, hpk]
        · simp only [List.map_cons, hpk, if_false, dictLookup_cons]
          apply ih
          simp only [dictHasKey, List.any_cons, Bool.or_eq_true,
            decide_eq_true_eq] at h
          rcases h with h | h
          · exact absurd h hpk
          · simpa [dictHasKey] using h
  · rw [if_neg h]
    induction d with
    | nil => simp [dictLookup_cons]
    | cons p rest ih =>
        simp only [dictHasKey, List.any_cons, Bool.or_eq_true,
          decide_eq_true_eq, not_or] at h
        rw [List.cons_append, dictLookup_cons, if_neg h.1]
        exact ih (by simpa [dictHasKey] using h.2)

/-! ## MistralTokenizer (src/keras_nlp/src/models/mistral/mistral_tokenizer.py) -/

/-- The state of a `MistralTokenizer` object.  A vocabulary (the result of
parsing a SentencePiece proto) is embedded as the id-ordered list of its
tokens, so the id of a token is its position; `vocabulary = none` embeds
the unconfigured state (`proto is None`). -/
structure MistralTokenizer where
  start_token : String
  end_token : String
  vocabulary : Option (List String)
  start_token_id : Option Nat
  end_token_id : Option Nat
deriving DecidableEq

/-- Modelled from the spec: `SentencePieceTokenizer.set_proto` (the
superclass, not under src/) builds the token-id mapping from the proto
and stores it on the tokenizer; a `None` proto clears the mapping. -/
def superSetProto (t : MistralTokenizer) (proto : Option (List String)) :
    MistralTokenizer :=
  { t with vocabulary := proto }

/-- Modelled from the spec: `SentencePieceTokenizer.get_vocabulary` (not
under src/) returns the configured tokens. -/
def get_vocabulary (t : MistralTokenizer) : List String :=
  t.vocabulary.getD []

/-- Modelled from the spec: `SentencePieceTokenizer.token_to_id` (not under
src/) resolves a token string to its integer id in the vocabulary. -/
def token_to_id (t : MistralTokenizer) (token : String) : Nat :=
  (get_vocabulary t).indexOf token

/-- The `ValueError` message raised by `MistralTokenizer.set_proto` for a
missing special token (quoting punctuation elided): it names the missing
token and the two remediation paths, providing the token in the vocabulary
or using a pretrained vocabulary. -/
def missingTokenMessage (token : String) : String :=
  "Cannot find token " ++ token ++ " in the provided vocabulary. " ++
    "Please provide " ++ token ++
      " in your vocabulary or use a pretrained vocabulary name."

/-- `MistralTokenizer.__init__`: fixes the special tokens to the start and
end markers before the superclass constructor hands the proto to
`set_proto`; the state before `set_proto` runs has no vocabulary and no
resolved ids. -/
def MistralTokenizer.init : MistralTokenizer :=
  { start_token := "<s>", end_token := "</s>", vocabulary := none,
    start_token_id := none, end_token_id := none }

/-- `MistralTokenizer.set_proto`: calls the superclass `set_proto`, then,
for a non-`None` proto, checks the start token and then the end token
against `get_vocabulary()`, raising `ValueError` on the first one missing;
on success it assigns `start_token_id` and `end_token_id` from
`token_to_id`.  For a `None` proto both ids are set to `None`.  A raise
happens before either id field is assigned, so the error carries the
object state at the point of the raise. -/
def MistralTokenizer.set_proto (t : MistralTokenizer)
    (proto : Option (List String)) :
    Except (String × MistralTokenizer) MistralTokenizer :=
  let t := superSetProto t proto
  match proto with
  | some _ =>
      if t.start_token ∉ get_vocabulary t then
        .error (missingTokenMessage t.start_token, t)
      else if t.end_token ∉ get_vocabulary t then
        .error (missingTokenMessage t.end_token, t)
      else
        .ok { t with
          start_token_id := some (token_to_id t t.start_token),
          end_token_id := some (token_to_id t t.end_token) }
  | none =>
      .ok { t with start_token_id := none, end_token_id := none }

/-- C4: for every vocabulary containing both required special tokens,
configuring the tokenizer succeeds and `start_token_id` / `end_token_id`
equal the integer ids of the start and end markers in that vocabulary. -/
theorem C4_set_proto_resolves_special_token_ids
    (t : MistralTokenizer) (vocab : List String)
    (hst : t.start_token = "<s>") (het : t.end_token = "</s>")
    (hs : ("<s>") ∈ vocab) (he : ("</s>") ∈ vocab) :
    t.set_proto (some vocab) =
      .ok { t with
          vocabulary := some vocab,
          start_token_id := some (vocab.indexOf ("<s>")),
          end_token_id := some (vocab.indexOf ("</s>")) } := by
  unfold MistralTokenizer.set_proto superSetProto
  simp only [get_vocabulary, Option.getD_some, hst, het, token_to_id]
  rw [if_neg (by simpa using hs), if_neg (by simpa using he)]

theorem C4_witness :
    MistralTokenizer.init.set_proto (some ["<s>", "</s>", "hi"]) =
      .ok { MistralTokenizer.init with
          vocabulary := some ["<s>", "</s>", "hi"],
          start_token_id := some 0, end_token_id := some 1 } := by
  have h := C4_set_proto_resolves_special_token_ids MistralTokenizer.init
    ["<s>", "</s>", "hi"] rfl rfl (by decide) (by decide)
  rw [h]
  rfl

/-- C5: for every vocabulary missing a required special token, configuring
fails with a `ValueError` whose message is `missingTokenMessage` of the
missing token (which spells the token out, together with the two
remediation paths), and the failure does not assign either id field. -/
theorem C5_set_proto_missing_token_fails
    (t : MistralTokenizer) (vocab : List String)
    (hst : t.start_token = "<s>") (het : t.end_token = "</s>")
    (hmiss : ("<s>") ∉ vocab ∨ ("</s>") ∉ vocab) :
    ∃ token state_at_raise,
      token ∉ vocab ∧ (token = "<s>" ∨ token = "</s>") ∧
      t.set_proto (some vocab) =
        .error (missingTokenMessage token, state_at_raise) ∧
      state_at_raise.start_token_id = t.start_token_id ∧
      state_at_raise.end_token_id = t.end_token_id ∧
      (∃ pre post, missingTokenMessage token = pre ++ (token ++ post)) := by
  unfold MistralTokenizer.set_proto superSetProto
  simp only [get_vocabulary, Option.getD_some, hst, het]
  by_cases h1 : ("<s>") ∈ vocab
  · have h2 : ("</s>") ∉ vocab := by tauto
    refine ⟨"</s>", { t with vocabulary := some vocab }, h2, Or.inr rfl, ?_,
      rfl, rfl, "Cannot find token ",
      " in the provided vocabulary. Please provide </s> in your vocabulary or use a pretrained vocabulary name.",
      rfl⟩
    rw [if_neg (by simpa using h1), if_pos (by simpa using h2), hst, het]
  · refine ⟨"<s>", { t with vocabulary := some vocab }, h1, Or.inl rfl, ?_,
      rfl, rfl, "Cannot find token ",
      " in the provided vocabulary. Please provide <s> in your vocabulary or use a pretrained vocabulary name.",
      rfl⟩
    rw [if_pos (by simpa using h1), hst, het]

theorem C5_witness :
    ∃ token state_at_raise,
      token ∉ (["</s>", "hi"] : List String) ∧
      (token = "<s>" ∨ token = "</s>") ∧
      MistralTokenizer.init.set_proto (some ["</s>", "hi"]) =
        .error (missingTokenMessage token, state_at_raise) ∧
      state_at_raise.start_token_id = MistralTokenizer.init.start_token_id ∧
      state_at_raise.end_token_id = MistralTokenizer.init.end_token_id ∧
      (∃ pre post, missingTokenMessage token = pre ++ (token ++ post)) :=
  C5_set_proto_missing_token_fails MistralTokenizer.init ["</s>", "hi"]
    rfl rfl (Or.inl (by decide))

/-- C6: configuring with `None` always succeeds regardless of prior state,
clears the vocabulary mapping, and resets both resolved ids to `None`. -/
theorem C6_set_proto_none_clears (t : MistralTokenizer) :
    t.set_proto none =
      .ok { t with
          vocabulary := none,
          start_token_id := none, end_token_id := none } :=
  rfl

/-! ## Task weight partitioning and persistence (src/keras_nlp/src/models/task.py) -/

/-- Python `str.endswith`: the suffix test used by the weight file name
checks. -/
def pyEndswith (s suffixStr : String) : Bool :=
  suffixStr.data.isSuffixOf s.data

/-- The parts of the state of a `Task` object read by the weight-partitioning
and persistence methods.  Weight tensors and layers are embedded by their
object identity (`id(...)` in Python): `weights` holds the identities of
`self.weights`, `backbone_weights` those of `self.backbone.weights`, and
`backbone_layer_ids` those of `self.backbone._flatten_layers()`;
`has_preprocessor` embeds `self.preprocessor is not None`. -/
structure TaskState where
  weights : List Nat
  backbone_weights : List Nat
  backbone_layer_ids : List Nat
  has_preprocessor : Bool
deriving DecidableEq

/-- `Task.has_task_weights`: true iff the set of the task weight-tensor
identities is not a subset of the backbone weight-tensor identities. -/
def Task.has_task_weights (t : TaskState) : Bool :=
  ! t.weights.all (fun w => t.backbone_weights.contains w)

/-- The `ValueError` message of `Task.save_task_weights` for a filename
with the wrong suffix (quoting punctuation elided). -/
def saveSuffixMessage (filepath : String) : String :=
  "The filename must end in .weights.h5. Received: filepath=" ++ filepath

/-- The `ValueError` message of `Task.save_task_weights` when no
task-specific weights exist (the interpolated `self` repr elided). -/
def nothingToSaveMessage : String :=
  "Task has no weights not in the backbone. save_task_weights() has nothing to save."

/-- The `ValueError` message of `Task.load_task_weights` for a filename
with the wrong suffix (the source writes the message as a plain string, so
the braces appear literally). -/
def loadSuffixMessage : String :=
  "The filename must end in .weights.h5. Received: filepath=\x7bfilepath\x7d"

/-- `Task.save_task_weights`: the suffix of the filename is checked first,
then the presence of task-specific weights; the single write, the call to
`keras.saving.save_weights(self, filepath, objects_to_skip)`, is embedded
as the `Except.ok` result carrying its `objects_to_skip` argument, so an
`Except.error` result means the raise happened and no file was written. -/
def Task.save_task_weights (t : TaskState) (filepath : String) :
    Except String (List Nat) :=
  if ! pyEndswith filepath (".weights.h5") then
    .error (saveSuffixMessage filepath)
  else
    let backbone_layer_ids := t.backbone_layer_ids
    if ! Task.has_task_weights t then
      .error nothingToSaveMessage
    else
      .ok backbone_layer_ids

/-- `Task.load_task_weights`: the suffix of the filename is checked before
anything is read; the single load, the call to
`keras.saving.load_weights(self, filepath, objects_to_skip)`, is embedded
as the `Except.ok` result carrying its `objects_to_skip` argument (the
backbone layer identities excluded from the load), so an `Except.error`
result means the raise happened and no weight was touched. -/
def Task.load_task_weights (t : TaskState) (filepath : String) :
    Except String (List Nat) :=
  if ! pyEndswith filepath (".weights.h5") then
    .error loadSuffixMessage
  else
    let backbone_layer_ids := t.backbone_layer_ids
    .ok backbone_layer_ids

/-- The `ValueError` message of `Task.save_to_preset` when the
preprocessor is unset (quoting punctuation elided). -/
def preprocessorUnsetMessage : String :=
  "Cannot save task to preset: Preprocessor is not initialized."

/-- Modelled from the spec: `TASK_WEIGHTS_FILE` (preset_utils, not under
src/) is the fixed task-weights file name inside a preset directory; per
the preset directory layout its name ends in the required weights
suffix. -/
def TASK_WEIGHTS_FILE : String := "task.weights.h5"

/-- The persistence steps `Task.save_to_preset` can perform, in the order
the source performs them: write the task config, write the task-specific
weights, delegate to the preprocessor, delegate to the backbone. -/
inductive SaveEvent where
  | save_task_config
  | save_task_weights
  | save_preprocessor
  | save_backbone
deriving DecidableEq

/-- `Task.save_to_preset`: fails when the preprocessor is unset; otherwise
writes the task config (`save_serialized_object`), then, exactly when
task-specific weights exist, saves them through `Task.save_task_weights`
into `TASK_WEIGHTS_FILE` under the preset directory, then delegates to the
preprocessor and then the backbone.  The result is the ordered trace of
the persistence steps performed. -/
def Task.save_to_preset (t : TaskState) (preset_dir : String) :
    Except String (List SaveEvent) :=
  if ! t.has_preprocessor then
    .error preprocessorUnsetMessage
  else
    let events := [SaveEvent.save_task_config]
    match (if Task.has_task_weights t then
             (Task.save_task_weights t
                 (preset_dir ++ ("/") ++ TASK_WEIGHTS_FILE)).map
               (fun _ => events ++ [SaveEvent.save_task_weights])
           else Except.ok events) with
    | .error e => .error e
    | .ok evs => .ok (evs ++ [SaveEvent.save_preprocessor, SaveEvent.save_backbone])

/-- C7: `has_task_weights` is true iff the task weight identities are not
a subset of the backbone weight identities; in particular it is false when
the task weights are exactly the backbone weights, and true as soon as one
weight outside the backbone is present. -/
theorem C7_has_task_weights_iff (t : TaskState) :
    (Task.has_task_weights t = true ↔
      ¬ (∀ w ∈ t.weights, w ∈ t.backbone_weights))
    ∧ (t.weights = t.backbone_weights → Task.has_task_weights t = false)
    ∧ (∀ w, w ∈ t.weights → w ∉ t.backbone_weights →
        Task.has_task_weights t = true) := by
  have hiff : Task.has_task_weights t = true ↔
      ¬ (∀ w ∈ t.weights, w ∈ t.backbone_weights) := by
    simp [Task.has_task_weights, List.all_eq_true]
  refine ⟨hiff, ?_, ?_⟩
  · intro heq
    rw [← Bool.not_eq_true, hiff, not_not]
    intro w hw
    exact heq ▸ hw
  · intro w hw hnb
    rw [hiff]
    intro hall
    exact hnb (hall w hw)

theorem C7_witness :
    Task.has_task_weights ⟨[1], [1], [], true⟩ = false
    ∧ Task.has_task_weights ⟨[1, 2], [1], [], true⟩ = true := by
  constructor
  · exact (C7_has_task_weights_iff ⟨[1], [1], [], true⟩).2.1 rfl
  · exact (C7_has_task_weights_iff ⟨[1, 2], [1], [], true⟩).2.2 2
      (by decide) (by decide)

/-- C8: saving task weights to a path without the required suffix raises a
precondition error, and saving when no task-specific weights exist raises
a precondition error saying there is nothing to save; in both cases the
result is an error, so the write call is never reached. -/
theorem C8_save_task_weights_preconditions (t : TaskState) (filepath : String) :
    (pyEndswith filepath (".weights.h5") = false →
      Task.save_task_weights t filepath = .error (saveSuffixMessage filepath))
    ∧ (pyEndswith filepath (".weights.h5") = true →
        Task.has_task_weights t = false →
        Task.save_task_weights t filepath = .error nothingToSaveMessage)
    ∧ (∀ o, Task.save_task_weights t filepath = .ok o →
        pyEndswith filepath (".weights.h5") = true ∧
        Task.has_task_weights t = true) := by
  refine ⟨?_, ?_, ?_⟩
  · intro h
    simp [Task.save_task_weights, h]
  · intro h hw
    simp [Task.save_task_weights, h, hw]
  · intro o h
    unfold Task.save_task_weights at h
    by_cases h1 : pyEndswith filepath (".weights.h5") = true
    · by_cases h2 : Task.has_task_weights t = true
      · exact ⟨h1, h2⟩
      · have h2f : Task.has_task_weights t = false := by simpa using h2
        simp [h1, h2f] at h
    · have h1f : pyEndswith filepath (".weights.h5") = false := by
        simpa using h1
      simp [h1f] at h

theorem C8_witness :
    Task.save_task_weights ⟨[1, 2], [1], [7], true⟩ ("weights.bin") =
      .error (saveSuffixMessage ("weights.bin"))
    ∧ Task.save_task_weights ⟨[1], [1], [7], true⟩ ("task.weights.h5") =
      .error nothingToSaveMessage := by
  constructor
  · exact (C8_save_task_weights_preconditions ⟨[1, 2], [1], [7], true⟩
      ("weights.bin")).1 (by decide)
  · exact (C8_save_task_weights_preconditions ⟨[1], [1], [7], true⟩
      ("task.weights.h5")).2.1 (by decide) (by decide)

/-- C10: loading task weights from a path without the required suffix
raises a `ValueError` before anything is loaded (the result is an error,
so the load call is never reached and every weight is untouched); a
successful load requires the suffix and excludes exactly the backbone
layer identities from the load. -/
theorem C10_load_task_weights_suffix_guard (t : TaskState) (filepath : String) :
    (pyEndswith filepath (".weights.h5") = false →
      Task.load_task_weights t filepath = .error loadSuffixMessage)
    ∧ (∀ o, Task.load_task_weights t filepath = .ok o →
        pyEndswith filepath (".weights.h5") = true ∧
        o = t.backbone_layer_ids) := by
  constructor
  · intro h
    simp [Task.load_task_weights, h]
  · intro o h
    unfold Task.load_task_weights at h
    by_cases h1 : pyEndswith filepath (".weights.h5") = true
    · simp [h1] at h
      exact ⟨h1, h.symm⟩
    · have h1f : pyEndswith filepath (".weights.h5") = false := by
        simpa using h1
      simp [h1f] at h

theorem pyEndswith_true_iff (s suf : String) :
    pyEndswith s suf = true ↔ suf.data <:+ s.data := by
  simp [pyEndswith, List.isSuffixOf_iff_suffix]

theorem pyEndswith_task_weights_file (preset_dir : String) :
    pyEndswith (preset_dir ++ ("/") ++ TASK_WEIGHTS_FILE) (".weights.h5") = true := by
  rw [pyEndswith_true_iff]
  have h1 : (".weights.h5").data <:+ TASK_WEIGHTS_FILE.data := by decide
  have h2 : TASK_WEIGHTS_FILE.data <:+
      (preset_dir ++ ("/") ++ TASK_WEIGHTS_FILE).data := by
    rw [String.data_append]
    exact List.suffix_append _ _
  exact h1.trans h2

/-- C9: persisting a task to a preset directory fails when the
preprocessor is unset; when it is set, the trace is exactly: the task
config is written, then the task-specific weights exactly when some exist,
then the preprocessor is delegated to, then the backbone. -/
theorem C9_save_to_preset (t : TaskState) (preset_dir : String) :
    (t.has_preprocessor = false →
      Task.save_to_preset t preset_dir = .error preprocessorUnsetMessage)
    ∧ (t.has_preprocessor = true →
        Task.save_to_preset t preset_dir =
          .ok ([SaveEvent.save_task_config] ++
            (if Task.has_task_weights t then [SaveEvent.save_task_weights]
             else []) ++
            [SaveEvent.save_preprocessor, SaveEvent.save_backbone])) := by
  constructor
  · intro h
    simp [Task.save_to_preset, h]
  · intro h
    unfold Task.save_to_preset
    simp only [h, Bool.not_true, Bool.false_eq_true, if_false]
    by_cases hw : Task.has_task_weights t = true
    · have hsave : Task.save_task_weights t
          (preset_dir ++ ("/") ++ TASK_WEIGHTS_FILE) =
          .ok t.backbone_layer_ids := by
        unfold Task.save_task_weights
        rw [pyEndswith_task_weights_file preset_dir]
        simp [hw]
      simp [hw, hsave, Except.map]
    · have hwf : Task.has_task_weights t = false := by simpa using hw
      simp [hwf]

theorem C9_witness :
    Task.save_to_preset ⟨[1, 2], [1], [7], false⟩ ("dir") =
      .error preprocessorUnsetMessage
    ∧ Task.save_to_preset ⟨[1, 2], [1], [7], true⟩ ("dir") =
      .ok [SaveEvent.save_task_config, SaveEvent.save_task_weights,
        SaveEvent.save_preprocessor, SaveEvent.save_backbone]
    ∧ Task.save_to_preset ⟨[1], [1], [7], true⟩ ("dir") =
      .ok [SaveEvent.save_task_config,
        SaveEvent.save_preprocessor, SaveEvent.save_backbone] := by
  refine ⟨(C9_save_to_preset ⟨[1, 2], [1], [7], false⟩ ("dir")).1 rfl, ?_, ?_⟩
  · have h := (C9_save_to_preset ⟨[1, 2], [1], [7], true⟩ ("dir")).2 rfl
    rw [h]
    rfl
  · have h := (C9_save_to_preset ⟨[1], [1], [7], true⟩ ("dir")).2 rfl
    rw [h]
    rfl

theorem C10_witness :
    Task.load_task_weights ⟨[1], [1], [7], true⟩ ("weights.bin") =
      .error loadSuffixMessage :=
  (C10_load_task_weights_suffix_guard ⟨[1], [1], [7], true⟩
    ("weights.bin")).1 (by decide)

/-! ## Preset resolution: `from_preset` on `Task` and `Preprocessor` -/

/-- A class in the model registry, embedded by its name and the name of
its declared backbone family (`backbone_cls`, a class attribute; `none`
embeds `None`, the value on the abstract bases). -/
structure KClass where
  name : String
  backbone_cls : Option String
deriving DecidableEq

/-- The abstract base `Task` (its `backbone_cls` class attribute is
`None`). -/
def TaskBase : KClass := { name := "Task", backbone_cls := none }

/-- The abstract base `Preprocessor` (its `backbone_cls` class attribute
is `None`). -/
def PreprocessorBase : KClass := { name := "Preprocessor", backbone_cls := none }

/-- The errors `from_preset` can raise: the `ValueError` guarding the
abstract entry points (the `UsageError` of the spec taxonomy, carrying its
message) and the error `find_subclass` raises when no registered subclass
declares the preset backbone family (the `UnsupportedPresetError` of the
spec taxonomy). -/
inductive ResolveError where
  | usageError (message : String)
  | unsupportedPresetError
deriving DecidableEq

/-- The collaborator calls `from_preset` makes, in order:
`get_preset_loader(preset)` and then `loader.load_task(cls, ...)` or
`loader.load_preprocessor(cls, ...)` on the resolved class. -/
inductive PresetEvent where
  | get_loader
  | load_task (clsName : String)
  | load_preprocessor (clsName : String)
deriving DecidableEq

/-- The `ValueError` message of `Task.from_preset` on the abstract base
(quoting punctuation elided). -/
def taskBaseUsageMessage : String :=
  "Do not call Task.from_preset() directly. Instead call a particular " ++
    "task class, e.g. keras_nlp.models.Classifier.from_preset() or " ++
      "keras_nlp.models.BertClassifier.from_preset()."

/-- The `ValueError` message of `Preprocessor.from_preset` on the abstract
base (quoting punctuation elided, original wording kept). -/
def preprocessorBaseUsageMessage : String :=
  "Do not call Preprocessor.from_preset() directly. Instead call a " ++
    "choose a particular task class, e.g. " ++
      "keras_nlp.models.BertPreprocessor.from_preset()."

/-- Modelled from the spec: `find_subclass` (preset_utils, not under src/)
performs the registry search: it enumerates all known subclasses
(transitively) of the invoking class and selects the one whose declared
backbone family equals the declared family of the preset; zero matches raise
`UnsupportedPresetError`; among several matches the first found by the
enumeration is taken.  `registered` is the enumeration, in registration
order. -/
def find_subclass (registered : List KClass) (backbone_cls : String) :
    Except ResolveError KClass :=
  match registered.filter (fun c => c.backbone_cls = some backbone_cls) with
  | [] => .error ResolveError.unsupportedPresetError
  | c :: _ => .ok c

/-- `Task.from_preset`: guards the abstract base, resolves the preset to a
loader (`get_preset_loader`), reads the declared backbone family
(`loader.check_backbone_class()`, embedded as `preset_backbone_cls`),
switches to the matching registered subclass exactly when the invoking
own `backbone_cls` of the class differs, and loads the task on the resolved
class.  The first component is the ordered trace of collaborator calls, so
an empty trace means no preset loading was attempted. -/
def Task.from_preset (cls : KClass) (registered : List KClass)
    (preset_backbone_cls : String) :
    List PresetEvent × Except ResolveError KClass :=
  if cls = TaskBase then
    ([], .error (ResolveError.usageError taskBaseUsageMessage))
  else
    let events := [PresetEvent.get_loader]
    let backbone_cls := preset_backbone_cls
    match (if cls.backbone_cls ≠ some backbone_cls
           then find_subclass registered backbone_cls
           else Except.ok cls) with
    | .error e => (events, .error e)
    | .ok c => (events ++ [PresetEvent.load_task c.name], .ok c)

/-- `Preprocessor.from_preset`: same resolution as `Task.from_preset`,
guarding the abstract `Preprocessor` base and loading through
`loader.load_preprocessor` on the resolved class. -/
def Preprocessor.from_preset (cls : KClass) (registered : List KClass)
    (preset_backbone_cls : String) :
    List PresetEvent × Except ResolveError KClass :=
  if cls = PreprocessorBase then
    ([], .error (ResolveError.usageError preprocessorBaseUsageMessage))
  else
    let events := [PresetEvent.get_loader]
    let backbone_cls := preset_backbone_cls
    match (if cls.backbone_cls ≠ some backbone_cls
           then find_subclass registered backbone_cls
           else Except.ok cls) with
    | .error e => (events, .error e)
    | .ok c => (events ++ [PresetEvent.load_preprocessor c.name], .ok c)

/-- C1: for a concrete class whose own declared backbone family equals the
preset, `from_preset` loads with the invoking class, independently of
the registry; otherwise, with exactly one registered subclass matching the
family, it loads with that subclass, and with zero matches it raises
`UnsupportedPresetError`; likewise for `Preprocessor.from_preset`. -/
theorem C1_from_preset_subclass_dispatch (cls : KClass)
    (registered : List KClass) (pb : String) :
    (cls ≠ TaskBase → cls.backbone_cls = some pb →
      Task.from_preset cls registered pb =
        ([PresetEvent.get_loader, PresetEvent.load_task cls.name], .ok cls))
    ∧ (∀ sub, cls ≠ TaskBase → cls.backbone_cls ≠ some pb →
        registered.filter (fun c => c.backbone_cls = some pb) = [sub] →
        Task.from_preset cls registered pb =
          ([PresetEvent.get_loader, PresetEvent.load_task sub.name], .ok sub))
    ∧ (cls ≠ TaskBase → cls.backbone_cls ≠ some pb →
        registered.filter (fun c => c.backbone_cls = some pb) = [] →
        Task.from_preset cls registered pb =
          ([PresetEvent.get_loader], .error ResolveError.unsupportedPresetError))
    ∧ (cls ≠ PreprocessorBase → cls.backbone_cls = some pb →
      Preprocessor.from_preset cls registered pb =
        ([PresetEvent.get_loader, PresetEvent.load_preprocessor cls.name], .ok cls))
    ∧ (∀ sub, cls ≠ PreprocessorBase → cls.backbone_cls ≠ some pb →
        registered.filter (fun c => c.backbone_cls = some pb) = [sub] →
        Preprocessor.from_preset cls registered pb =
          ([PresetEvent.get_loader, PresetEvent.load_preprocessor sub.name], .ok sub))
    ∧ (cls ≠ PreprocessorBase → cls.backbone_cls ≠ some pb →
        registered.filter (fun c => c.backbone_cls = some pb) = [] →
        Preprocessor.from_preset cls registered pb =
          ([PresetEvent.get_loader], .error ResolveError.unsupportedPresetError)) := by
  refine ⟨?_, ?_, ?_, ?_, ?_, ?_⟩
  · intro hbase hmatch
    rw [Task.from_preset, if_neg hbase]
    dsimp only
    rw [if_neg (not_not_intro hmatch)]
    rfl
  · intro sub hbase hdiff hone
    rw [Task.from_preset, if_neg hbase]
    dsimp only
    rw [if_pos hdiff]
    unfold find_subclass
    rw [hone]
    rfl
  · intro hbase hdiff hzero
    rw [Task.from_preset, if_neg hbase]
    dsimp only
    rw [if_pos hdiff]
    unfold find_subclass
    rw [hzero]
  · intro hbase hmatch
    rw [Preprocessor.from_preset, if_neg hbase]
    dsimp only
    rw [if_neg (not_not_intro hmatch)]
    rfl
  · intro sub hbase hdiff hone
    rw [Preprocessor.from_preset, if_neg hbase]
    dsimp only
    rw [if_pos hdiff]
    unfold find_subclass
    rw [hone]
    rfl
  · intro hbase hdiff hzero
    rw [Preprocessor.from_preset, if_neg hbase]
    dsimp only
    rw [if_pos hdiff]
    unfold find_subclass
    rw [hzero]

theorem C1_witness :
    Task.from_preset ⟨"BertClassifier", some "BertBackbone"⟩ []
        ("BertBackbone") =
      ([PresetEvent.get_loader, PresetEvent.load_task ("BertClassifier")],
        .ok ⟨"BertClassifier", some "BertBackbone"⟩)
    ∧ Task.from_preset ⟨"Classifier", none⟩
        [⟨"BertClassifier", some "BertBackbone"⟩] ("BertBackbone") =
      ([PresetEvent.get_loader, PresetEvent.load_task ("BertClassifier")],
        .ok ⟨"BertClassifier", some "BertBackbone"⟩)
    ∧ Task.from_preset ⟨"Classifier", none⟩ [] ("BertBackbone") =
      ([PresetEvent.get_loader], .error ResolveError.unsupportedPresetError)
    ∧ Preprocessor.from_preset ⟨"BertPreprocessor", some "BertBackbone"⟩ []
        ("BertBackbone") =
      ([PresetEvent.get_loader,
          PresetEvent.load_preprocessor ("BertPreprocessor")],
        .ok ⟨"BertPreprocessor", some "BertBackbone"⟩) := by
  refine ⟨?_, ?_, ?_, ?_⟩
  · exact (C1_from_preset_subclass_dispatch
      ⟨"BertClassifier", some "BertBackbone"⟩ [] ("BertBackbone")).1
      (by decide) rfl
  · exact (C1_from_preset_subclass_dispatch ⟨"Classifier", none⟩
      [⟨"BertClassifier", some "BertBackbone"⟩] ("BertBackbone")).2.1
      ⟨"BertClassifier", some "BertBackbone"⟩ (by decide) (by decide) rfl
  · exact (C1_from_preset_subclass_dispatch ⟨"Classifier", none⟩ []
      ("BertBackbone")).2.2.1 (by decide) (by decide) rfl
  · exact (C1_from_preset_subclass_dispatch
      ⟨"BertPreprocessor", some "BertBackbone"⟩ [] ("BertBackbone")).2.2.2.1
      (by decide) rfl

/-- C3: calling `from_preset` on the abstract bases `Task` or
`Preprocessor` raises the `ValueError` instructing the caller to use a
concrete subclass, with an empty collaborator trace: no preset loading is
attempted for any preset or registry. -/
theorem C3_from_preset_base_guard (registered : List KClass) (pb : String) :
    Task.from_preset TaskBase registered pb =
      ([], .error (ResolveError.usageError taskBaseUsageMessage))
    ∧ Preprocessor.from_preset PreprocessorBase registered pb =
      ([], .error (ResolveError.usageError preprocessorBaseUsageMessage)) :=
  ⟨by rw [Task.from_preset, if_pos rfl],
    by rw [Preprocessor.from_preset, if_pos rfl]⟩

/-! ## Preset enumeration: the `presets` classproperty -/

/-- A class in the preset registry with everything the `presets`
classproperty reads: the presets registered directly on the class
(`list_presets(cls)`, modelled from the spec as the own
registrations of the class since preset_utils is not under src/), the recursively
computed enumeration of its declared backbone class (`backbone_cls.presets`
for `Task`, `tokenizer_cls.presets` for `Preprocessor`; `none` embeds an
unset declaration), and its registered direct subclasses, in registration
order. -/
inductive PyClass : Type where
  | mk : Dict → Option Dict → List PyClass → PyClass

/-- The presets registered directly on the class (`list_presets(cls)`). -/
def PyClass.direct : PyClass → Dict
  | .mk d _ _ => d

/-- The enumeration of the declared backbone (or tokenizer) class. -/
def PyClass.backbonePresets : PyClass → Option Dict
  | .mk _ b _ => b

/-- The registered direct subclasses. -/
def PyClass.subs : PyClass → List PyClass
  | .mk _ _ s => s

/-- Modelled from the spec: `list_subclasses` (preset_utils, not under
src/) enumerates all known subclasses of a class, transitively. -/
def list_subclasses : PyClass → List PyClass
  | .mk _ _ subs =>
      (subs.attach.map (fun s => s.1 :: list_subclasses s.1)).flatten
termination_by c => sizeOf c
decreasing_by
  have h1 := List.sizeOf_lt_of_mem s.2
  simp only [PyClass.mk.sizeOf_spec]
  omega

theorem map_attach_fn {α β : Type _} (l : List α) (f : α → β) :
    l.attach.map (fun s => f s.1) = l.map f := by
  conv_rhs => rw [← List.attach_map_val l]

theorem list_subclasses_def (direct : Dict) (bb : Option Dict)
    (subs : List PyClass) :
    list_subclasses (PyClass.mk direct bb subs) =
      (subs.map (fun s => s :: list_subclasses s)).flatten := by
  rw [list_subclasses]
  rw [map_attach_fn subs (fun s => s :: list_subclasses s)]

theorem sizeOf_lt_of_mem_list_subclasses :
    ∀ (c : PyClass), ∀ s ∈ list_subclasses c, sizeOf s < sizeOf c
  | .mk direct bb subs => by
    intro s hs
    rw [list_subclasses_def] at hs
    simp only [List.mem_flatten, List.mem_map] at hs
    obtain ⟨l, ⟨x, hx, rfl⟩, hsl⟩ := hs
    have hxlt : sizeOf x < sizeOf (PyClass.mk direct bb subs) := by
      have h1 := List.sizeOf_lt_of_mem hx
      simp only [PyClass.mk.sizeOf_spec]
      omega
    rcases List.mem_cons.mp hsl with rfl | htail
    · exact hxlt
    · have h2 := sizeOf_lt_of_mem_list_subclasses x s htail
      omega
termination_by c => sizeOf c

/-- `Task.presets` / `Preprocessor.presets`: start from the presets
registered directly on the class, `update` with the enumeration of the
declared backbone (or tokenizer) class when one is set, then `update` with
`subclass.presets` for every transitive subclass, in enumeration order. -/
def PyClass.presets (c : PyClass) : Dict :=
  let p := c.direct
  let p := match c.backbonePresets with
    | some b => dictUpdate p b
    | none => p
  ((list_subclasses c).attach.map (fun s => s.1.presets)).foldl dictUpdate p
termination_by sizeOf c
decreasing_by exact sizeOf_lt_of_mem_list_subclasses c s.1 s.2

theorem presets_def (c : PyClass) :
    c.presets = ((list_subclasses c).map PyClass.presets).foldl dictUpdate
      (match c.backbonePresets with
       | some b => dictUpdate c.direct b
       | none => c.direct) := by
  rw [PyClass.presets]
  rw [map_attach_fn (list_subclasses c) PyClass.presets]

theorem dictKeys_foldl_dictUpdate (ds : List Dict) : ∀ (d : Dict) (k : String),
    k ∈ dictKeys (ds.foldl dictUpdate d) ↔
      k ∈ dictKeys d ∨ ∃ e ∈ ds, k ∈ dictKeys e := by
  induction ds with
  | nil =>
      intro d k
      simp
  | cons e rest ih =>
      intro d k
      rw [List.foldl_cons, ih, dictKeys_dictUpdate]
      simp only [List.mem_cons]
      constructor
      · rintro ((h | h) | ⟨f, hf, h⟩)
        · exact Or.inl h
        · exact Or.inr ⟨e, Or.inl rfl, h⟩
        · exact Or.inr ⟨f, Or.inr hf, h⟩
      · rintro (h | ⟨f, (rfl | hf), h⟩)
        · exact Or.inl (Or.inl h)
        · exact Or.inl (Or.inr h)
        · exact Or.inr ⟨f, hf, h⟩

theorem mem_dictKeys_presets_iff (c : PyClass) (k : String) :
    k ∈ dictKeys c.presets ↔
      k ∈ dictKeys c.direct
      ∨ (∃ b, c.backbonePresets = some b ∧ k ∈ dictKeys b)
      ∨ (∃ s ∈ list_subclasses c, k ∈ dictKeys s.presets) := by
  rw [presets_def c, dictKeys_foldl_dictUpdate]
  have hbase : k ∈ dictKeys (match c.backbonePresets with
      | some b => dictUpdate c.direct b
      | none => c.direct) ↔
      k ∈ dictKeys c.direct
      ∨ (∃ b, c.backbonePresets = some b ∧ k ∈ dictKeys b) := by
    rcases hb : c.backbonePresets with _ | b
    · simp
    · dsimp only
      rw [dictKeys_dictUpdate]
      constructor
      · rintro (h | h)
        · exact Or.inl h
        · exact Or.inr ⟨b, rfl, h⟩
      · rintro (h | ⟨e, he, h⟩)
        · exact Or.inl h
        · injection he with he2
          subst he2
          exact Or.inr h
  rw [hbase]
  simp only [List.mem_map]
  constructor
  · rintro ((h | h) | ⟨e, ⟨s, hs, rfl⟩, hk⟩)
    · exact Or.inl h
    · exact Or.inr (Or.inl h)
    · exact Or.inr (Or.inr ⟨s, hs, hk⟩)
  · rintro (h | h | ⟨s, hs, hk⟩)
    · exact Or.inl (Or.inl h)
    · exact Or.inl (Or.inr h)
    · exact Or.inr ⟨s.presets, ⟨s, hs, rfl⟩, hk⟩

/-- C2 counterexample: first insertion does not win.  For a class with a
directly registered preset key that a subclass also declares (with a
different metadata value), the enumeration ends with the value of the subclass:
the later `update` overwrites the earlier binding.  And the enumeration of a subclass
is not a superset of that of its base class: the directly registered key
of the base is absent from the enumeration of the subclass. -/
theorem C2_counterexample :
    dictLookup (PyClass.presets (PyClass.mk [("p", 1)] none
        [PyClass.mk [("p", 2)] none []])) ("p") = some 2
    ∧ (some 2 ≠ (some 1 : Option Nat))
    ∧ ("q") ∈ dictKeys (PyClass.presets (PyClass.mk [("q", 5)] none
        [PyClass.mk [] none []]))
    ∧ ("q") ∉ dictKeys (PyClass.presets (PyClass.mk [] none [])) := by
  have hleaf2 : list_subclasses (PyClass.mk [("p", 2)] none []) = [] := by
    rw [list_subclasses_def]
    rfl
  have hleaf0 : list_subclasses (PyClass.mk [] none []) = [] := by
    rw [list_subclasses_def]
    rfl
  have hpar : list_subclasses (PyClass.mk [("p", 1)] none
      [PyClass.mk [("p", 2)] none []]) = [PyClass.mk [("p", 2)] none []] := by
    rw [list_subclasses_def]
    simp [hleaf2]
  have hqpar : list_subclasses (PyClass.mk [("q", 5)] none
      [PyClass.mk [] none []]) = [PyClass.mk [] none []] := by
    rw [list_subclasses_def]
    simp [hleaf0]
  have hpleaf2 : PyClass.presets (PyClass.mk [("p", 2)] none []) = [("p", 2)] := by
    rw [presets_def, hleaf2]
    rfl
  have hpleaf0 : PyClass.presets (PyClass.mk [] none []) = [] := by
    rw [presets_def, hleaf0]
    rfl
  have hppar : PyClass.presets (PyClass.mk [("p", 1)] none
      [PyClass.mk [("p", 2)] none []]) = [("p", 2)] := by
    rw [presets_def, hpar, List.map_cons, List.map_nil, hpleaf2]
    rfl
  have hpqpar : PyClass.presets (PyClass.mk [("q", 5)] none
      [PyClass.mk [] none []]) = [("q", 5)] := by
    rw [presets_def, hqpar, List.map_cons, List.map_nil, hpleaf0]
    rfl
  refine ⟨?_, by decide, ?_, ?_⟩
  · rw [hppar]
    rfl
  · rw [hpqpar]
    decide
  · rw [hpleaf0]
    decide

/-- C2 amended: the preset enumeration of a class has exactly the keys of
the presets registered directly on it, of the enumeration of its declared
backbone (or tokenizer) class when set, and of the enumerations of all its
transitive subclasses; a duplicate preset key is resolved by last
insertion wins (`dict.update` overwrites the value of a key already
present), and the enumeration is a superset of the directly registered
presets of the class and of every subclass (not, in general, of the
enumeration of its base class). -/
theorem C2_presets_union_last_wins (c : PyClass) (k : String) :
    (k ∈ dictKeys c.presets ↔
      k ∈ dictKeys c.direct
      ∨ (∃ b, c.backbonePresets = some b ∧ k ∈ dictKeys b)
      ∨ (∃ s ∈ list_subclasses c, k ∈ dictKeys s.presets))
    ∧ (∀ (d : Dict) (v : Nat), dictLookup (dictUpdate d [(k, v)]) k = some v)
    ∧ (k ∈ dictKeys c.direct → k ∈ dictKeys c.presets)
    ∧ (∀ s ∈ list_subclasses c, k ∈ dictKeys s.direct →
        k ∈ dictKeys c.presets) := by
  refine ⟨mem_dictKeys_presets_iff c k, ?_, ?_, ?_⟩
  · intro d v
    exact dictLookup_dictInsert_self d k v
  · intro h
    exact (mem_dictKeys_presets_iff c k).mpr (Or.inl h)
  · intro s hs hk
    exact (mem_dictKeys_presets_iff c k).mpr (Or.inr (Or.inr
      ⟨s, hs, (mem_dictKeys_presets_iff s k).mpr (Or.inl hk)⟩))

theorem C2_witness :
    ("b") ∈ dictKeys (PyClass.presets (PyClass.mk [("a", 1)] none
      [PyClass.mk [("b", 2)] none []])) := by
  have hleaf : list_subclasses (PyClass.mk [("b", 2)] none []) = [] := by
    rw [list_subclasses_def]
    rfl
  have hpar : list_subclasses (PyClass.mk [("a", 1)] none
      [PyClass.mk [("b", 2)] none []]) = [PyClass.mk [("b", 2)] none []] := by
    rw [list_subclasses_def]
    simp [hleaf]
  exact (C2_presets_union_last_wins (PyClass.mk [("a", 1)] none
      [PyClass.mk [("b", 2)] none []]) ("b")).2.2.2
    (PyClass.mk [("b", 2)] none [])
    (by rw [hpar]; exact List.mem_singleton.mpr rfl)
    (by decide)

end KerasNlp
